import Mathlib

/-!
# Verification of the blaze execution bridge and partitioned segment reader

Shallow embedding of the two source files

* `src/native-engine/blaze/src/exec.rs` — the JNI execution bridge:
  `initNative`, `callNative`, `loadBatches`, `deallocIter`,
  `is_jvm_interrupted`, `throw_runtime_exception`, `handle_unwinded`;
* `src/native-engine/datafusion-ext/src/shuffle_reader_exec.rs` — the
  partitioned segment reader: `ShuffleReaderExec::execute`,
  `ShuffleReaderStream::next_segment`, `ShuffleReaderStream::poll_next`.

Machine integers that the modelled code never overflows are modelled as
`Nat`; fallible operations return `Except`/`Option`; JNI side effects are
modelled as explicit events (channel-operation traces) or explicit state.
-/

namespace Blaze

/-- An Arrow record batch, as far as the modelled code inspects it:
`batch.num_rows()` and the opaque column buffers that `export_array_into_raw`
transfers verbatim.  Cell contents are modelled as raw `Nat` values so that
"bit-identical column data" is plain equality of `columns`. -/
structure RecordBatch where
  numRows : Nat
  columns : List (List Nat)
deriving DecidableEq, Repr

/-- One item produced by `stream.next().await` in `loadBatches`
(`exec.rs` line 191): `Some(Ok(batch))` or `Some(Err(e))`; the end of the
list models `None`.  A `DataFusionError` is modelled by the string its
`{:?}` formatting produces. -/
inductive StreamItem where
  | ok (b : RecordBatch)
  | err (msg : String)
deriving DecidableEq, Repr

/-- The value carried by one `JavaExchanger.exchange` on the output channel:
a `JavaBoolean` (`JNI_TRUE` = batch available, `JNI_FALSE` = end of stream,
`exec.rs` lines 227 and 255) or a `JavaRuntimeException(msg, cause)`
(`exec.rs` lines 272-282); `causeIsNull` records whether the cause argument
was `JObject::null()`. -/
inductive ExchangeVal where
  | jbool (b : Bool)
  | jerror (msg : String) (causeIsNull : Bool)
deriving DecidableEq, Repr

/-- One observable operation of the producer side of `loadBatches` on the
exchanger pair or on the caller-supplied Arrow memory descriptors:

* `inputExchange d` — one `JavaExchanger.exchange(input_exchanger, null)`
  whose result is the caller-supplied pair `d = (schema_ptr, array_ptr)`
  (`exec.rs` lines 204-214 and 247-252);
* `exportBatch d b` — one `export_array_into_raw` of batch `b` into the
  descriptors `d` (`exec.rs` lines 216-224);
* `outputExchange v` — one `JavaExchanger.exchange(output_exchanger, v)`
  (`exec.rs` lines 227-234, 255-262 and 272-282). -/
inductive ChanOp where
  | inputExchange (d : Nat × Nat)
  | exportBatch (d : Nat × Nat) (b : RecordBatch)
  | outputExchange (v : ExchangeVal)
deriving DecidableEq, Repr

/-- The channel-operation trace of the producer task spawned by
`Java_org_apache_spark_sql_blaze_JniBridge_loadBatches`
(`exec.rs` lines 189-286), as a function of the stream's items.

`descs k` is the descriptor pair the consumer supplies at the `k`-th input
exchange (the consumer side is free, so it is a parameter).

* `[]` (stream exhausted, `while let` falls through): one draining input
  exchange whose result is unused, then one output exchange carrying
  `JavaBoolean(JNI_FALSE)` (`exec.rs` lines 246-262);
* `Ok(batch)` with `num_rows == 0`: `continue`, no channel operation
  (`exec.rs` lines 198-201);
* `Ok(batch)` with `num_rows > 0`: input exchange yielding
  `(schema_ptr, array_ptr)`, export of the batch into exactly those
  descriptors, output exchange carrying `JavaBoolean(JNI_TRUE)`
  (`exec.rs` lines 203-234);
* `Err(e)`: `panic!("stream.next() error: {:?}", e)` (`exec.rs` line 237);
  the panic unwinds out of the loop, `catch_unwind` yields it to the
  `map_err` closure, which performs one output exchange carrying
  `JavaRuntimeException(panic_message, JObject::null())` and nothing else
  (`exec.rs` lines 264-285).  Items after the error are never pulled. -/
def loadBatchesTrace (descs : Nat → Nat × Nat) : Nat → List StreamItem → List ChanOp
  | k, [] =>
      [.inputExchange (descs k), .outputExchange (.jbool false)]
  | k, .ok b :: rest =>
      if b.numRows = 0 then
        loadBatchesTrace descs k rest
      else
        .inputExchange (descs k) :: .exportBatch (descs k) b ::
          .outputExchange (.jbool true) :: loadBatchesTrace descs (k + 1) rest
  | _, .err msg :: _ =>
      [.outputExchange (.jerror ("stream.next() error: " ++ msg) true)]

/-- The three channel/export operations `loadBatches` performs for one
non-empty batch delivered against the consumer-supplied descriptors `d`. -/
def perBatchOps (d : Nat × Nat) (b : RecordBatch) : List ChanOp :=
  [.inputExchange d, .exportBatch d b, .outputExchange (.jbool true)]

/-- The batches a trace exports to the caller, in order. -/
def deliveredBatches (t : List ChanOp) : List RecordBatch :=
  t.filterMap fun op =>
    match op with
    | .exportBatch _ b => some b
    | _ => none

/-- The input/output channel exchanges of a trace, in order
(`true` = input channel, `false` = output channel); exports are not
channel operations. -/
def exchangeKinds (t : List ChanOp) : List Bool :=
  t.filterMap fun op =>
    match op with
    | .inputExchange _ => some true
    | .exportBatch _ _ => none
    | .outputExchange _ => some false

/-- Whether an operation is an output exchange carrying an error value. -/
def isErrorSignal (op : ChanOp) : Bool :=
  match op with
  | .outputExchange (.jerror _ _) => true
  | _ => false

/-- The expected trace for a run over non-empty batches `bs` starting at
input-exchange index `k`, ending with the given tail of operations. -/
def expectedOps (descs : Nat → Nat × Nat) (k : Nat) (bs : List RecordBatch)
    (tail : List ChanOp) : List ChanOp :=
  (List.zipWith (fun i b => perBatchOps (descs i) b)
    (List.range' k bs.length) bs).flatten ++ tail

lemma expectedOps_nil (descs : Nat → Nat × Nat) (k : Nat) (tail : List ChanOp) :
    expectedOps descs k [] tail = tail := rfl

lemma expectedOps_cons (descs : Nat → Nat × Nat) (k : Nat) (b : RecordBatch)
    (bs : List RecordBatch) (tail : List ChanOp) :
    expectedOps descs k (b :: bs) tail =
      perBatchOps (descs k) b ++ expectedOps descs (k + 1) bs tail := by
  simp [expectedOps, List.range'_succ, List.zipWith, List.flatten]

/-- Core refinement lemma: on a stream prefix of non-empty `Ok` batches, the
`loadBatches` loop performs exactly the per-batch operation triples, in
stream order, consuming one consumer descriptor pair per input exchange,
and then continues with the trace of the remaining items. -/
lemma loadBatchesTrace_ok_run (descs : Nat → Nat × Nat) (k : Nat)
    (bs : List RecordBatch) (h : ∀ b ∈ bs, b.numRows ≠ 0) (rest : List StreamItem) :
    loadBatchesTrace descs k (bs.map .ok ++ rest) =
      expectedOps descs k bs (loadBatchesTrace descs (k + bs.length) rest) := by
  induction bs generalizing k with
  | nil => simp [expectedOps_nil]
  | cons b bs ih =>
      have hb : b.numRows ≠ 0 := h b (List.mem_cons_self b bs)
      have hbs : ∀ x ∈ bs, x.numRows ≠ 0 := fun x hx => h x (List.mem_cons_of_mem b hx)
      simp only [List.map_cons, List.cons_append, loadBatchesTrace, if_neg hb,
        expectedOps_cons, perBatchOps, List.append_eq, List.nil_append,
        List.length_cons]
      rw [ih (k + 1) hbs]
      have harith : k + 1 + bs.length = k + (bs.length + 1) := by omega
      rw [harith]

lemma deliveredBatches_append (t₁ t₂ : List ChanOp) :
    deliveredBatches (t₁ ++ t₂) = deliveredBatches t₁ ++ deliveredBatches t₂ := by
  simp [deliveredBatches]

lemma exchangeKinds_append (t₁ t₂ : List ChanOp) :
    exchangeKinds (t₁ ++ t₂) = exchangeKinds t₁ ++ exchangeKinds t₂ := by
  simp [exchangeKinds]

lemma deliveredBatches_expectedOps (descs : Nat → Nat × Nat) (k : Nat)
    (bs : List RecordBatch) (tail : List ChanOp) :
    deliveredBatches (expectedOps descs k bs tail) = bs ++ deliveredBatches tail := by
  induction bs generalizing k with
  | nil => simp [expectedOps_nil]
  | cons b bs ih =>
      rw [expectedOps_cons, deliveredBatches_append, ih]
      simp [deliveredBatches, perBatchOps]

lemma exchangeKinds_expectedOps (descs : Nat → Nat × Nat) (k : Nat)
    (bs : List RecordBatch) (tail : List ChanOp) :
    exchangeKinds (expectedOps descs k bs tail) =
      (List.replicate bs.length [true, false]).flatten ++ exchangeKinds tail := by
  induction bs generalizing k with
  | nil => simp [expectedOps_nil]
  | cons b bs ih =>
      rw [expectedOps_cons, exchangeKinds_append, ih]
      simp [exchangeKinds, perBatchOps, List.replicate_succ]

lemma count_false_expectedOps (descs : Nat → Nat × Nat) (k : Nat)
    (bs : List RecordBatch) (tail : List ChanOp) :
    (expectedOps descs k bs tail).count (ChanOp.outputExchange (.jbool false)) =
      tail.count (ChanOp.outputExchange (.jbool false)) := by
  induction bs generalizing k with
  | nil => simp [expectedOps_nil]
  | cons b bs ih =>
      rw [expectedOps_cons, List.count_append, ih]
      simp [perBatchOps, List.count_cons]

lemma countP_error_expectedOps (descs : Nat → Nat × Nat) (k : Nat)
    (bs : List RecordBatch) (tail : List ChanOp) :
    (expectedOps descs k bs tail).countP (fun op => isErrorSignal op) =
      tail.countP (fun op => isErrorSignal op) := by
  induction bs generalizing k with
  | nil => simp [expectedOps_nil]
  | cons b bs ih =>
      rw [expectedOps_cons, List.countP_append, ih]
      simp [perBatchOps, List.countP_cons, isErrorSignal]

lemma export_mem_numRows_pos (descs : Nat → Nat × Nat) (items : List StreamItem) :
    ∀ (k : Nat) (d : Nat × Nat) (b : RecordBatch),
      ChanOp.exportBatch d b ∈ loadBatchesTrace descs k items → 0 < b.numRows := by
  induction items with
  | nil =>
      intro k d b hb
      simp [loadBatchesTrace] at hb
  | cons it rest ih =>
      intro k d b hb
      match it with
      | .ok bb =>
          by_cases h0 : bb.numRows = 0
          · rw [show loadBatchesTrace descs k (.ok bb :: rest) =
                loadBatchesTrace descs k rest by simp [loadBatchesTrace, h0]] at hb
            exact ih k d b hb
          · rw [show loadBatchesTrace descs k (.ok bb :: rest) =
                ChanOp.inputExchange (descs k) :: ChanOp.exportBatch (descs k) bb ::
                  ChanOp.outputExchange (.jbool true) ::
                  loadBatchesTrace descs (k + 1) rest by
                simp [loadBatchesTrace, h0]] at hb
            simp only [List.mem_cons] at hb
            rcases hb with h | h | h | h
            · exact absurd h (by simp)
            · obtain ⟨-, hbb⟩ := ChanOp.exportBatch.inj h
              subst hbb
              exact Nat.pos_of_ne_zero h0
            · exact absurd h (by simp)
            · exact ih (k + 1) d b h
      | .err m =>
          simp [loadBatchesTrace] at hb

/-- **C1.** For a stream that produces the non-empty batches `batches` and
then ends, the `loadBatches` producer loop performs exactly the per-batch
operation triples for those batches in stream order, followed by one final
draining input-channel exchange and one output-channel exchange carrying
`false`; the batches exported to the caller are exactly `batches`, in
order, with no duplicates or drops, and the end-of-stream signal appears
exactly once. -/
theorem loadBatches_delivers_all (descs : Nat → Nat × Nat)
    (batches : List RecordBatch) (h : ∀ b ∈ batches, b.numRows ≠ 0) :
    loadBatchesTrace descs 0 (batches.map .ok) =
      expectedOps descs 0 batches
        [.inputExchange (descs batches.length), .outputExchange (.jbool false)] ∧
    deliveredBatches (loadBatchesTrace descs 0 (batches.map .ok)) = batches ∧
    (loadBatchesTrace descs 0 (batches.map .ok)).count
      (ChanOp.outputExchange (.jbool false)) = 1 := by
  have key := loadBatchesTrace_ok_run descs 0 batches h []
  rw [List.append_nil] at key
  have htail : loadBatchesTrace descs (0 + batches.length) [] =
      [.inputExchange (descs batches.length), .outputExchange (.jbool false)] := by
    simp [loadBatchesTrace]
  rw [htail] at key
  refine ⟨key, ?_, ?_⟩
  · rw [key, deliveredBatches_expectedOps]
    simp [deliveredBatches]
  · rw [key, count_false_expectedOps]
    simp [List.count_cons]

/-- Witness for `loadBatches_delivers_all` at a concrete two-batch stream. -/
theorem loadBatches_delivers_all_witness :
    deliveredBatches (loadBatchesTrace (fun k => (k, k + 100)) 0
        (([⟨2, [[1, 2]]⟩, ⟨1, [[3]]⟩] : List RecordBatch).map .ok)) =
      [⟨2, [[1, 2]]⟩, ⟨1, [[3]]⟩] :=
  (loadBatches_delivers_all (fun k => (k, k + 100))
    [⟨2, [[1, 2]]⟩, ⟨1, [[3]]⟩] (by decide)).2.1

/-- **C2.** For every non-empty batch the producer performs exactly, in this
order: one input-channel exchange yielding the consumer-supplied descriptor
pair, the export of the batch into exactly those descriptors, and one
output-channel exchange carrying `true`; no other channel operation occurs
per batch, and over the whole run (including the terminal end-of-stream
pair) input and output exchanges strictly alternate starting with an input
exchange. -/
theorem loadBatches_strict_alternation (descs : Nat → Nat × Nat)
    (batches : List RecordBatch) (h : ∀ b ∈ batches, b.numRows ≠ 0) :
    loadBatchesTrace descs 0 (batches.map .ok) =
      (List.zipWith (fun i b =>
          [ChanOp.inputExchange (descs i), ChanOp.exportBatch (descs i) b,
            ChanOp.outputExchange (.jbool true)])
        (List.range batches.length) batches).flatten ++
        [.inputExchange (descs batches.length), .outputExchange (.jbool false)] ∧
    exchangeKinds (loadBatchesTrace descs 0 (batches.map .ok)) =
      (List.replicate (batches.length + 1) [true, false]).flatten := by
  have key := loadBatchesTrace_ok_run descs 0 batches h []
  rw [List.append_nil] at key
  have htail : loadBatchesTrace descs (0 + batches.length) [] =
      [.inputExchange (descs batches.length), .outputExchange (.jbool false)] := by
    simp [loadBatchesTrace]
  rw [htail] at key
  constructor
  · rw [key]
    simp [expectedOps, perBatchOps, List.range_eq_range']
  · rw [key, exchangeKinds_expectedOps]
    rw [List.replicate_succ' (batches.length) ([true, false])]
    simp [exchangeKinds]

/-- Witness for `loadBatches_strict_alternation` at a concrete one-batch
stream. -/
theorem loadBatches_strict_alternation_witness :
    exchangeKinds (loadBatchesTrace (fun k => (2 * k, 2 * k + 1)) 0
        (([⟨3, [[9, 9, 9]]⟩] : List RecordBatch).map .ok)) =
      (List.replicate 2 [true, false]).flatten :=
  (loadBatches_strict_alternation (fun k => (2 * k, 2 * k + 1))
    [⟨3, [[9, 9, 9]]⟩] (by decide)).2

/-- **C3.** If the stream yields an error after the non-empty batches
`batches`, the producer stops pulling (the items `rest` after the error are
never consumed), performs no input-channel exchange for the failing item,
and performs exactly one terminal handshake: a single output-channel
exchange carrying an error value holding the error's message text and a
null cause; no operation follows it, and the error signal occurs exactly
once in the whole trace. -/
theorem loadBatches_error_terminal (descs : Nat → Nat × Nat)
    (batches : List RecordBatch) (msg : String) (rest : List StreamItem)
    (h : ∀ b ∈ batches, b.numRows ≠ 0) :
    loadBatchesTrace descs 0 (batches.map .ok ++ .err msg :: rest) =
      expectedOps descs 0 batches
        [.outputExchange (.jerror ("stream.next() error: " ++ msg) true)] ∧
    (loadBatchesTrace descs 0 (batches.map .ok ++ .err msg :: rest)).countP
      (fun op => isErrorSignal op) = 1 := by
  have key := loadBatchesTrace_ok_run descs 0 batches h (.err msg :: rest)
  have htail : loadBatchesTrace descs (0 + batches.length) (.err msg :: rest) =
      [.outputExchange (.jerror ("stream.next() error: " ++ msg) true)] := by
    simp [loadBatchesTrace]
  rw [htail] at key
  refine ⟨key, ?_⟩
  rw [key, countP_error_expectedOps]
  simp [List.countP_cons, isErrorSignal]

/-- Witness for `loadBatches_error_terminal`: one good batch, then a stream
error; the item after the error is never reached. -/
theorem loadBatches_error_terminal_witness :
    loadBatchesTrace (fun k => (k, k)) 0
        (([⟨1, [[7]]⟩] : List RecordBatch).map .ok ++
          .err "boom" :: [.ok ⟨5, [[1, 2, 3, 4, 5]]⟩]) =
      expectedOps (fun k => (k, k)) 0 [⟨1, [[7]]⟩]
        [.outputExchange (.jerror ("stream.next() error: " ++ "boom") true)] :=
  (loadBatches_error_terminal (fun k => (k, k)) [⟨1, [[7]]⟩] "boom"
    [.ok ⟨5, [[1, 2, 3, 4, 5]]⟩] (by decide)).1

/-- **C4.** Every batch exported to the caller has a row count strictly
greater than zero, for any stream contents whatsoever; and a zero-row batch
is skipped before any channel exchange or export happens for it — the trace
of a stream beginning with a zero-row batch equals the trace of the stream
without it. -/
theorem loadBatches_skips_zero_row (descs : Nat → Nat × Nat) (k : Nat)
    (items : List StreamItem) :
    (∀ (d : Nat × Nat) (b : RecordBatch),
        ChanOp.exportBatch d b ∈ loadBatchesTrace descs k items → 0 < b.numRows) ∧
    (∀ (b : RecordBatch) (rest : List StreamItem), b.numRows = 0 →
        loadBatchesTrace descs k (.ok b :: rest) = loadBatchesTrace descs k rest) := by
  constructor
  · exact fun d b hb => export_mem_numRows_pos descs items k d b hb
  · intro b rest h0
    simp [loadBatchesTrace, h0]

/-- Witness for `loadBatches_skips_zero_row`: a zero-row batch at the head
of the stream leaves the trace unchanged. -/
theorem loadBatches_skips_zero_row_witness :
    loadBatchesTrace (fun _ => (7, 8)) 0
        (.ok ⟨0, [[]]⟩ :: [.ok ⟨1, [[4]]⟩]) =
      loadBatchesTrace (fun _ => (7, 8)) 0 [.ok ⟨1, [[4]]⟩] :=
  (loadBatches_skips_zero_row (fun _ => (7, 8)) 0 [.ok ⟨1, [[4]]⟩]).2
    ⟨0, [[]]⟩ [.ok ⟨1, [[4]]⟩] rfl

/-! ## Partitioned segment reader (`shuffle_reader_exec.rs`) -/

/-- Error class of `ShuffleReaderStream::next_segment`: `segmentRead` covers
both an unexpected EOF (`read` returning a negative count,
`shuffle_reader_exec.rs` lines 191-196) and a failing `read` JNI call
(`?` on line 188); `segmentDecode` covers a decompression failure
(lines 202-203) and an IPC container-parsing failure (line 206). -/
inductive SegErr where
  | segmentRead
  | segmentDecode
deriving DecidableEq, Repr

/-- The read loop of `ShuffleReaderStream::next_segment`
(`shuffle_reader_exec.rs` lines 184-198):

```rust
let mut zdata = vec![0; len as usize];
let mut zdata_read_bytes = 0;
while zdata_read_bytes < len as usize {
    let buf = ...&mut zdata[zdata_read_bytes..];
    let read_bytes = channel.read(buf)?;
    if read_bytes < 0 { return Err(... "unexpected EOF") }
    zdata_read_bytes += read_bytes as usize;
}
```

`data` is what the channel can still supply, `acc` the bytes read so far,
`remaining = len - zdata_read_bytes` the bytes still to read, `i` counts
read calls.  `sched i = none` models the `i`-th `read` JNI call failing;
`sched i = some cap` bounds the bytes the channel supplies on that call.
A blocking `SeekableByteChannel` read into a non-empty buffer returns at
least one byte while data remains (`min … (cap + 1)`) and a negative count
once it is exhausted, which the loop turns into the "unexpected EOF"
error. -/
def readFully (sched : Nat → Option Nat) (i : Nat) (data acc : List Nat)
    (remaining : Nat) : Except SegErr (List Nat × List Nat) :=
  if h : remaining = 0 then .ok (acc, data)
  else
    match data with
    | [] => .error .segmentRead
    | d :: ds =>
      match sched i with
      | none => .error .segmentRead
      | some cap =>
        let k := min remaining (min (d :: ds).length (cap + 1))
        readFully sched (i + 1) ((d :: ds).drop k) (acc ++ (d :: ds).take k)
          (remaining - k)
  termination_by remaining
  decreasing_by simp only [List.length_cons]; omega

lemma readFully_spec_aux (sched : Nat → Option Nat) (hs : ∀ j, (sched j).isSome) :
    ∀ (remaining i : Nat) (data acc : List Nat),
      readFully sched i data acc remaining =
        if remaining ≤ data.length then
          .ok (acc ++ data.take remaining, data.drop remaining)
        else .error .segmentRead := by
  intro remaining
  induction remaining using Nat.strong_induction_on with
  | _ remaining ih =>
    intro i data acc
    by_cases h0 : remaining = 0
    · subst h0
      rw [readFully.eq_def]
      simp
    · obtain ⟨cap, hcap⟩ := Option.isSome_iff_exists.mp (hs i)
      cases data with
      | nil =>
          rw [readFully.eq_def]
          simp [h0]
      | cons d ds =>
          rw [readFully.eq_def]
          simp only [dif_neg h0, hcap]
          have hk1 : 1 ≤ min remaining (min (d :: ds).length (cap + 1)) := by
            simp only [List.length_cons]
            omega
          have hkrem : min remaining (min (d :: ds).length (cap + 1)) ≤ remaining :=
            Nat.min_le_left _ _
          have hklen : min remaining (min (d :: ds).length (cap + 1)) ≤
              (d :: ds).length := by
            simp only [List.length_cons]
            omega
          rw [ih (remaining - min remaining (min (d :: ds).length (cap + 1)))
            (by omega) (i + 1) _ _]
          by_cases hle : remaining ≤ (d :: ds).length
          · rw [if_pos hle,
              if_pos (by simp only [List.length_drop, List.length_cons] at *; omega)]
            have htake : (d :: ds).take (min remaining (min (d :: ds).length (cap + 1))) ++
                ((d :: ds).drop (min remaining (min (d :: ds).length (cap + 1)))).take
                  (remaining - min remaining (min (d :: ds).length (cap + 1))) =
                (d :: ds).take remaining := by
              rw [← List.take_add]
              congr 1
              omega
            have hdrop : ((d :: ds).drop (min remaining (min (d :: ds).length (cap + 1)))).drop
                (remaining - min remaining (min (d :: ds).length (cap + 1))) =
                (d :: ds).drop remaining := by
              rw [List.drop_drop]
              congr 1
              omega
            rw [List.append_assoc, htake, hdrop]
          · rw [if_neg hle,
              if_neg (by simp only [List.length_drop, List.length_cons] at *; omega)]

/-- **C5.** For every segment, the `next_segment` read loop reads exactly
the declared length `len` (the channel's reported `size()`) into memory:
when the channel can supply `len` bytes the loop returns precisely the
first `len` bytes, and whenever the channel cannot (its data runs out
before `len` bytes, or a `read` call fails) the loop terminates with the
fatal segment-read error instead of yielding partial data or looping
forever (the model is a total function, so termination is unconditional). -/
theorem next_segment_read_loop (sched : Nat → Option Nat) (data : List Nat)
    (len : Nat) (hs : ∀ j, (sched j).isSome) :
    (len ≤ data.length →
      readFully sched 0 data [] len = .ok (data.take len, data.drop len)) ∧
    (data.length < len →
      readFully sched 0 data [] len = .error .segmentRead) ∧
    (∀ (sched' : Nat → Option Nat), sched' 0 = none → 0 < len → data ≠ [] →
      readFully sched' 0 data [] len = .error .segmentRead) := by
  have h := readFully_spec_aux sched hs len 0 data []
  refine ⟨?_, ?_, ?_⟩
  · intro hle
    rw [h, if_pos hle]
    simp
  · intro hlt
    rw [h, if_neg (by omega)]
  · intro sched' hnone hlen hdata
    match data with
    | d :: ds =>
        rw [readFully.eq_def]
        simp [Nat.pos_iff_ne_zero.mp hlen, hnone]

/-- Witness for `next_segment_read_loop` with one-byte reads: the loop
iterates, completes a full-length read exactly, and errors on a declared
length exceeding the available bytes. -/
theorem next_segment_read_loop_witness :
    readFully (fun _ => some 0) 0 [10, 20, 30] [] 3 = .ok ([10, 20, 30], []) ∧
    readFully (fun _ => some 0) 0 [10, 20, 30] [] 5 = .error .segmentRead := by
  constructor
  · exact (next_segment_read_loop (fun _ => some 0) [10, 20, 30] 3
      (fun _ => rfl)).1 (by decide)
  · exact (next_segment_read_loop (fun _ => some 0) [10, 20, 30] 5
      (fun _ => rfl)).2.1 (by decide)

/-! ### Segment payload formats

zstd (`zstd::stream::Decoder`) and the Arrow IPC file format
(`arrow::ipc::reader::FileReader`) are external libraries, not code of this
repository; the spec treats them as opaque lossless codecs ("Segment wire
format: arbitrary-length compressed byte stream; decompressed payload is a
self-describing container of columnar batches").  They are modelled from
the spec as concrete executable encodings with proved decode-encode
inverses. -/

/-- Modelled from the spec: one column buffer inside the self-describing
container, stored length-prefixed. -/
def encodeCol (c : List Nat) : List Nat := c.length :: c

/-- Modelled from the spec: decode one length-prefixed column buffer,
returning the column and the remaining bytes. -/
def decodeCol : List Nat → Option (List Nat × List Nat)
  | [] => none
  | n :: rest => if n ≤ rest.length then some (rest.take n, rest.drop n) else none

/-- Modelled from the spec: one batch inside the container — row count,
column count, then the column buffers. -/
def encodeBatch (b : RecordBatch) : List Nat :=
  b.numRows :: b.columns.length :: (b.columns.map encodeCol).flatten

/-- Decode `n` consecutive items with the given item decoder. -/
def decodeSeq {α : Type} (dec : List Nat → Option (α × List Nat)) :
    Nat → List Nat → Option (List α × List Nat)
  | 0, s => some ([], s)
  | n + 1, s => do
      let (a, s₁) ← dec s
      let (as, s₂) ← decodeSeq dec n s₁
      some (a :: as, s₂)

/-- Modelled from the spec: decode one batch of the container (row count,
column count, column buffers), returning the batch and remaining bytes. -/
def decodeBatch : List Nat → Option (RecordBatch × List Nat)
  | nr :: nc :: rest => do
      let (cols, s) ← decodeSeq decodeCol nc rest
      some (⟨nr, cols⟩, s)
  | _ => none

/-- Modelled from the spec: the decompressed payload of one segment, a
self-describing container of columnar batches — a batch count followed by
the batches ("a directory of batches followed by their data"). -/
def encodeContainer (bs : List RecordBatch) : List Nat :=
  bs.length :: (bs.map encodeBatch).flatten

/-- Modelled from the spec: parse one container; stands in for
`FileReader::try_new` plus the reader's subsequent batch iteration.
`none` models a container-parsing failure. -/
def decodeContainer : List Nat → Option (List RecordBatch)
  | [] => none
  | n :: rest => do
      let (bs, s) ← decodeSeq decodeBatch n rest
      if s.isEmpty then some bs else none

/-- Modelled from the spec: the zstd codec over arbitrary bytes, a lossless
self-checking frame (here a length prefix). -/
def compress (d : List Nat) : List Nat := d.length :: d

/-- Modelled from the spec: inverse of `compress`; `none` models a
decompression error. -/
def decompress : List Nat → Option (List Nat)
  | [] => none
  | n :: rest => if rest.length = n then some rest else none

lemma decodeCol_encodeCol (c s : List Nat) :
    decodeCol (encodeCol c ++ s) = some (c, s) := by
  simp only [encodeCol, List.cons_append, decodeCol]
  rw [if_pos (by simp), List.take_left, List.drop_left]

lemma decodeSeq_encode {α : Type} (enc : α → List Nat)
    (dec : List Nat → Option (α × List Nat))
    (hdec : ∀ (a : α) (s : List Nat), dec (enc a ++ s) = some (a, s)) :
    ∀ (as : List α) (s : List Nat),
      decodeSeq dec as.length ((as.map enc).flatten ++ s) = some (as, s) := by
  intro as
  induction as with
  | nil =>
      intro s
      simp [decodeSeq]
  | cons a as ih =>
      intro s
      simp only [List.map_cons, List.flatten_cons, List.length_cons,
        List.append_assoc]
      simp [decodeSeq, hdec a _, ih s]

lemma decodeBatch_encodeBatch (b : RecordBatch) (s : List Nat) :
    decodeBatch (encodeBatch b ++ s) = some (b, s) := by
  obtain ⟨nr, cols⟩ := b
  simp only [encodeBatch, List.cons_append, List.append_assoc, decodeBatch]
  simp [decodeSeq_encode encodeCol decodeCol decodeCol_encodeCol cols s]

lemma decodeContainer_encodeContainer (bs : List RecordBatch) :
    decodeContainer (encodeContainer bs) = some bs := by
  have h := decodeSeq_encode encodeBatch decodeBatch decodeBatch_encodeBatch bs []
  rw [List.append_nil] at h
  simp [encodeContainer, decodeContainer, h]

lemma decompress_compress (d : List Nat) : decompress (compress d) = some d := by
  simp [compress, decompress]

/-- One element of the segment sequence as `next_segment` sees it: a
`JavaSeekableByteChannel` with its reported `size()` (the declared length,
`shuffle_reader_exec.rs` line 181) and the bytes it can actually supply. -/
structure SegChannel where
  size : Nat
  data : List Nat
deriving DecidableEq, Repr

/-- The body of `ShuffleReaderStream::next_segment` once the segment
sequence has yielded a channel (`shuffle_reader_exec.rs` lines 180-210),
paired with whether `jni_delete_local_ref!(channel)` (line 209) ran: read
exactly the declared length (lines 184-198), decompress the bytes
(lines 201-203), construct the container reader (lines 205-206), and only
after all of that succeeds delete the channel local reference and return
`Ok(true)` (lines 209-210); each failure returns through `?` before the
deletion. -/
def nextSegmentStep (sched : Nat → Option Nat) (ch : SegChannel) :
    Except SegErr (List RecordBatch) × Bool :=
  match readFully sched 0 ch.data [] ch.size with
  | .error e => (.error e, false)
  | .ok (zdata, _) =>
      match decompress zdata with
      | none => (.error .segmentDecode, false)
      | some arrowData =>
          match decodeContainer arrowData with
          | none => (.error .segmentDecode, false)
          | some bs => (.ok bs, true)

/-- The decoded-batch sequence one `next_segment` call installs as the new
`arrow_file_reader`, or the error it returns. -/
def readSegment (sched : Nat → Option Nat) (ch : SegChannel) :
    Except SegErr (List RecordBatch) :=
  (nextSegmentStep sched ch).1

/-- All items `ShuffleReaderStream::poll_next` delivers, in order, up to
and including either the end of the stream or the first error
(`shuffle_reader_exec.rs` lines 217-237).  The two arguments are the
stream's state: the remaining segment sequence and the current
`arrow_file_reader` cursor (`none` = no reader open, as in
`ShuffleReaderStream::new`):

* an open cursor with a next batch yields it (lines 224-230);
* otherwise, with the segment sequence exhausted, `next_segment` resets the
  cursor and returns `Ok(false)`, so the poll returns `Poll::Ready(None)`
  (lines 172-178 and 236);
* otherwise `next_segment` processes the next segment; an error propagates
  through `?` as the stream's one error item, and success installs the
  fresh cursor and retries (lines 233-235). -/
def drive (sched : Nat → Option Nat) :
    List SegChannel → Option (List RecordBatch) → List (Except SegErr RecordBatch)
  | chs, some (b :: bs) => .ok b :: drive sched chs (some bs)
  | [], _ => []
  | ch :: rest, _ =>
      match readSegment sched ch with
      | .error e => [.error e]
      | .ok bs => drive sched rest (some bs)
  termination_by chs cur => (chs.length, (cur.getD []).length)

/-- **C9.** `next_segment` deletes the channel local reference exactly on
the fully successful path: the reference is released if and only if the
read, the decompression and the container-reader construction all
succeeded; on every failure path the function returns the error without
releasing the channel reference. -/
theorem next_segment_deletes_channel_iff_success (sched : Nat → Option Nat)
    (ch : SegChannel) :
    (nextSegmentStep sched ch).2 = true ↔
      ∃ bs, (nextSegmentStep sched ch).1 = .ok bs := by
  cases h1 : readFully sched 0 ch.data [] ch.size with
  | error e =>
      simp [nextSegmentStep, h1]
  | ok zr =>
      obtain ⟨zdata, restBytes⟩ := zr
      cases h2 : decompress zdata with
      | none => simp [nextSegmentStep, h1, h2]
      | some arrowData =>
          cases h3 : decodeContainer arrowData with
          | none => simp [nextSegmentStep, h1, h2, h3]
          | some bs => simp [nextSegmentStep, h1, h2, h3]

lemma readSegment_roundtrip (sched : Nat → Option Nat)
    (hs : ∀ j, (sched j).isSome) (g : List RecordBatch) :
    readSegment sched
      ⟨(compress (encodeContainer g)).length, compress (encodeContainer g)⟩ =
      .ok g := by
  have hr := readFully_spec_aux sched hs (compress (encodeContainer g)).length 0
    (compress (encodeContainer g)) []
  rw [if_pos (le_refl _)] at hr
  simp only [List.take_length, List.drop_length, List.nil_append] at hr
  simp [readSegment, nextSegmentStep, hr, decompress_compress,
    decodeContainer_encodeContainer]

lemma drive_cursor_flush (sched : Nat → Option Nat) (chs : List SegChannel)
    (bs : List RecordBatch) :
    drive sched chs (some bs) = bs.map .ok ++ drive sched chs none := by
  induction bs with
  | nil => cases chs <;> simp [drive]
  | cons b bs ih => simp [drive, ih]

/-- **C6.** Round-trip: serializing the batch groups `groups` (one
self-describing container per segment) and compressing each container into
a segment, then polling the segment reader over those segments from its
initial state, yields exactly the concatenation of the groups — the same
batches, in the same order, with bit-identical column data — followed by
end of stream (no further items). -/
theorem shuffle_reader_roundtrip (sched : Nat → Option Nat)
    (hs : ∀ j, (sched j).isSome) (groups : List (List RecordBatch)) :
    drive sched
        (groups.map fun g =>
          (⟨(compress (encodeContainer g)).length,
            compress (encodeContainer g)⟩ : SegChannel)) none =
      groups.flatten.map .ok := by
  induction groups with
  | nil => simp [drive]
  | cons g gs ih =>
      simp only [List.map_cons, List.flatten_cons, List.map_append]
      have h1 : drive sched
          ((⟨(compress (encodeContainer g)).length,
            compress (encodeContainer g)⟩ : SegChannel) ::
            gs.map fun g =>
              (⟨(compress (encodeContainer g)).length,
                compress (encodeContainer g)⟩ : SegChannel)) none =
          drive sched
            (gs.map fun g =>
              (⟨(compress (encodeContainer g)).length,
                compress (encodeContainer g)⟩ : SegChannel)) (some g) := by
        simp [drive, readSegment_roundtrip sched hs g]
      rw [h1, drive_cursor_flush, ih]

/-- Witness for `shuffle_reader_roundtrip`: two batches in two segments
come back identically, then end of stream. -/
theorem shuffle_reader_roundtrip_witness :
    drive (fun _ => some 10)
        (([[⟨1, [[2]]⟩], [⟨2, [[3, 4]]⟩]] : List (List RecordBatch)).map fun g =>
          (⟨(compress (encodeContainer g)).length,
            compress (encodeContainer g)⟩ : SegChannel)) none =
      [.ok ⟨1, [[2]]⟩, .ok ⟨2, [[3, 4]]⟩] :=
  shuffle_reader_roundtrip (fun _ => some 10) (fun _ => rfl)
    [[⟨1, [[2]]⟩], [⟨2, [[3, 4]]⟩]]

/-! ## `ShuffleReaderExec::execute` (`shuffle_reader_exec.rs` lines 108-132) -/

/-- `ShuffleReaderExec` (`shuffle_reader_exec.rs` lines 55-75); the
`SchemaRef` is modelled as an opaque identifier, and the metrics set is not
modelled (it only feeds observability timers). -/
structure ShuffleReaderExec where
  num_partitions : Nat
  native_shuffle_id : String
  schema : Nat
deriving DecidableEq, Repr

/-- The `ShuffleReaderStream` state that `execute` constructs
(`ShuffleReaderStream::new`, `shuffle_reader_exec.rs` lines 157-169): the
exec's schema, the segment sequence, and an initially absent
`arrow_file_reader`. -/
structure ReaderState where
  schema : Nat
  segments : List SegChannel
  arrowFileReader : Option (List RecordBatch)
deriving DecidableEq, Repr

/-- `ShuffleReaderExec::execute` (`shuffle_reader_exec.rs` lines 108-132).
Both parameters are ignored by the source (bound as `_partition` and
`_context`); the segment sequence is obtained solely from the JNI resource
registry under the exec's `native_shuffle_id`
(`JniBridge.getResource(native_shuffle_id)` then `.apply()`, lines
117-124).  `registry` models that resource lookup composed with the
provider call; metrics timer recording is not modelled. -/
def ShuffleReaderExec.executeModel {Ctx : Type} (e : ShuffleReaderExec)
    (registry : String → List SegChannel) (_partition : Nat) (_context : Ctx) :
    ReaderState :=
  { schema := e.schema
    segments := registry e.native_shuffle_id
    arrowFileReader := none }

/-- **C10.** `ShuffleReaderExec::execute` is independent of both of its
arguments: any two partition indices and any two task contexts (even of
different types) produce the same stream state, whose segment sequence
comes solely from the resource registry under the exec's
`native_shuffle_id`; consequently the items the stream delivers are the
same regardless of the requested partition. -/
theorem execute_ignores_partition_and_context {Ctx₁ Ctx₂ : Type}
    (e : ShuffleReaderExec) (registry : String → List SegChannel)
    (p₁ p₂ : Nat) (c₁ : Ctx₁) (c₂ : Ctx₂) (sched : Nat → Option Nat) :
    e.executeModel registry p₁ c₁ = e.executeModel registry p₂ c₂ ∧
    (e.executeModel registry p₁ c₁).segments = registry e.native_shuffle_id ∧
    drive sched (e.executeModel registry p₁ c₁).segments
        (e.executeModel registry p₁ c₁).arrowFileReader =
      drive sched (e.executeModel registry p₂ c₂).segments
        (e.executeModel registry p₂ c₂).arrowFileReader :=
  ⟨rfl, rfl, rfl⟩

/-! ## Fault boundary and runtime initialization (`exec.rs`) -/

/-- The JNI environment state `handle_unwinded` interacts with (`exec.rs`
lines 309-370): the pending Java exception, identified by its class name
(`none` = no exception pending), plus the outcomes of the three fallible
JNI operations inside `throw_runtime_exception`: `env.new_string`
(line 328), `jni_bridge_new_object` (line 329), and the
`JniBridge.raiseThrowable` call whose result is bound to `_throw` and
discarded (lines 330-334).  The exception-introspection calls inside
`is_jvm_interrupted` are modelled as succeeding. -/
structure JvmEnv where
  pendingException : Option String
  newStringOk : Bool
  newObjectOk : Bool
  raiseOk : Bool
deriving DecidableEq, Repr

/-- `is_jvm_interrupted` (`exec.rs` lines 309-324): an exception is pending
and its class name is `java.lang.InterruptedException`. -/
def is_jvm_interrupted (env : JvmEnv) : Bool :=
  env.pendingException == some "java.lang.InterruptedException"

/-- Result of `throw_runtime_exception` (`exec.rs` lines 326-336):
`failed` when `env.new_string` or the exception construction returns `Err`
(the `?` on lines 328-329 propagates it); otherwise `completed r`, where
`r` is what the `JniBridge.raiseThrowable` call returned — that result is
bound to `_throw` and discarded, so the function returns `Ok(())` either
way (lines 330-335). -/
inductive ThrowAttempt where
  | failed
  | completed (raiseReturnedOk : Bool)
deriving DecidableEq, Repr

def throw_runtime_exception (env : JvmEnv) : ThrowAttempt :=
  if env.newStringOk then
    if env.newObjectOk then .completed env.raiseOk
    else .failed
  else .failed

/-- How one `handle_unwinded` invocation ends, as observed by the caller:
return normally with the interruption cleared; raise one
`RuntimeException(msg, cause)` to the JVM (recording what the discarded
raise call returned); or abort the whole process via `env.fatal_error`. -/
inductive RecoverOutcome where
  | normalReturn
  | raisedException (msg : String) (causeClass : Option String)
      (raiseReturnedOk : Bool)
  | fatalError
deriving DecidableEq, Repr

/-- `handle_unwinded` (`exec.rs` lines 338-370): if the JVM shows a pending
`InterruptedException`, clear it, log, and return normally (lines
346-350); otherwise take any pending exception as the cause (clearing it,
lines 354-360) and call `throw_runtime_exception` with the panic message
and that cause (line 361); if `recover()` returned an error,
`env.fatal_error` kills the whole JVM (lines 364-369). -/
def handle_unwinded (env : JvmEnv) (panicMsg : String) : JvmEnv × RecoverOutcome :=
  if is_jvm_interrupted env then
    ({ env with pendingException := none }, .normalReturn)
  else
    let cause := env.pendingException
    let env' := { env with pendingException := none }
    match throw_runtime_exception env' with
    | .failed => (env', .fatalError)
    | .completed r => (env', .raisedException panicMsg cause r)

/-- Counterexample to **C8** as stated.  The claim requires that whenever
the reporting step itself fails the whole process is aborted, never
silently swallowed; but when the final `raiseThrowable` call is the part
that fails (`raiseOk = false` below), its `Result` is bound to `_throw`
and discarded (`exec.rs` lines 330-334), so `handle_unwinded` completes
without aborting and without escalating that failure. -/
theorem handle_unwinded_swallows_raise_failure :
    (handle_unwinded ⟨none, true, true, false⟩ "boom").2 =
      .raisedException "boom" none false ∧
    (handle_unwinded ⟨none, true, true, false⟩ "boom").2 ≠ .fatalError := by
  constructor
  · rfl
  · decide

/-- **C8 (amended).** The fault boundary's recovery policy in order: a
pending caller-side `InterruptedException` is cleared and the operation
returns normally with no error reported; otherwise the fault's message,
with any pending caller-visible exception as cause, is raised to the
caller as a single reported exception; and if constructing that report
(the message string or the exception object) fails, the whole process is
aborted — while an error returned by the final raise call itself is
discarded rather than escalated. -/
theorem handle_unwinded_policy (env : JvmEnv) (msg : String) :
    (env.pendingException = some "java.lang.InterruptedException" →
      handle_unwinded env msg =
        ({ env with pendingException := none }, .normalReturn)) ∧
    (env.pendingException ≠ some "java.lang.InterruptedException" →
      env.newStringOk = true → env.newObjectOk = true →
      handle_unwinded env msg =
        ({ env with pendingException := none },
          .raisedException msg env.pendingException env.raiseOk)) ∧
    (env.pendingException ≠ some "java.lang.InterruptedException" →
      (env.newStringOk = false ∨ env.newObjectOk = false) →
      handle_unwinded env msg =
        ({ env with pendingException := none }, .fatalError)) := by
  refine ⟨?_, ?_, ?_⟩
  · intro hint
    simp [handle_unwinded, is_jvm_interrupted, hint]
  · intro hint hns hno
    simp [handle_unwinded, is_jvm_interrupted, hint, throw_runtime_exception,
      hns, hno]
  · intro hint hfail
    rcases hfail with hf | hf <;>
      simp [handle_unwinded, is_jvm_interrupted, hint, throw_runtime_exception, hf]

/-- Witness for `handle_unwinded_policy`: a pending interruption is cleared
and the operation returns normally. -/
theorem handle_unwinded_policy_witness :
    handle_unwinded ⟨some "java.lang.InterruptedException", true, true, true⟩ "m" =
      (⟨none, true, true, true⟩, .normalReturn) :=
  (handle_unwinded_policy
    ⟨some "java.lang.InterruptedException", true, true, true⟩ "m").1 rfl

/-- The process-wide runtime state: the crate-root statics `LOGGING_INIT`
and `SESSIONCTX` consulted and installed by `initNative` (`exec.rs` lines
43-55).  `loggingInit` is `LOGGING_INIT.lock().unwrap().is_some()`.
Modelled from the spec: the crate-root definitions `init_logging` and
`init_session_ctx` are not under `src/`; per the spec they install the
write-once global logging and session context ("a single global execution
environment (memory budget, batch size, temp directories, logging)
initialized exactly once").  The `f64` memory fraction is carried opaquely
as its 64-bit pattern. -/
structure SessionCtx where
  nativeMemory : Nat
  memoryFractionBits : Nat
  batchSize : Nat
  tmpDirs : String
deriving DecidableEq, Repr

structure RuntimeState where
  loggingInit : Bool
  sessionCtx : Option SessionCtx
deriving DecidableEq, Repr

/-- How one `initNative` call ends: normal return with the state
installed, or the outcome of `handle_unwinded` on the caught panic. -/
inductive InitOutcome where
  | ok
  | recovered (r : RecoverOutcome)
deriving DecidableEq, Repr

/-- `Java_org_apache_spark_sql_blaze_JniBridge_initNative` (`exec.rs` lines
33-62): inside `catch_unwind`, panic with "Calling initNative() more than
once" if `LOGGING_INIT` is already set (lines 43-45) — the panic is caught
and handed to `handle_unwinded` (lines 57-59) with the global state left
untouched; otherwise install logging and the session context (lines
46-55).  `JavaClasses::init` and the `tmp_dirs` string conversion are
modelled as succeeding (their failures would take the same
`handle_unwinded` path). -/
def initNative (st : RuntimeState) (env : JvmEnv)
    (batchSize nativeMemory memoryFractionBits : Nat) (tmpDirs : String) :
    RuntimeState × JvmEnv × InitOutcome :=
  if st.loggingInit then
    let r := handle_unwinded env "Calling initNative() more than once"
    (st, r.1, .recovered r.2)
  else
    ({ loggingInit := true,
       sessionCtx := some ⟨nativeMemory, memoryFractionBits, batchSize, tmpDirs⟩ },
      env, .ok)

/-- **C7.** After a first successful `initNative`, a second call hits the
double-init guard; the resulting fault is reported to the caller through
the fault boundary as a reported exception (given the caller has no
pending interruption and the exception can be constructed) — not a process
crash and not a silent success — and the already-initialized process-wide
state (logging flag and session context) is left exactly as the first
call established it. -/
theorem initNative_twice_reports (st₀ : RuntimeState) (env₀ env : JvmEnv)
    (bs nm mf : Nat) (dirs : String) (bs' nm' mf' : Nat) (dirs' : String)
    (h₀ : st₀.loggingInit = false)
    (hni : env.pendingException ≠ some "java.lang.InterruptedException")
    (hns : env.newStringOk = true) (hno : env.newObjectOk = true) :
    (initNative (initNative st₀ env₀ bs nm mf dirs).1 env bs' nm' mf' dirs').1 =
      (initNative st₀ env₀ bs nm mf dirs).1 ∧
    (initNative st₀ env₀ bs nm mf dirs).1.sessionCtx = some ⟨nm, mf, bs, dirs⟩ ∧
    (initNative (initNative st₀ env₀ bs nm mf dirs).1 env bs' nm' mf' dirs').2.2 =
      .recovered (.raisedException "Calling initNative() more than once"
        env.pendingException env.raiseOk) := by
  have hst : (initNative st₀ env₀ bs nm mf dirs).1 =
      ({ loggingInit := true,
         sessionCtx := some ⟨nm, mf, bs, dirs⟩ } : RuntimeState) := by
    simp [initNative, h₀]
  refine ⟨?_, ?_, ?_⟩
  · rw [hst]
    simp [initNative]
  · rw [hst]
  · rw [hst]
    simp [initNative, handle_unwinded, is_jvm_interrupted, hni,
      throw_runtime_exception, hns, hno]

/-- Witness for `initNative_twice_reports` at concrete arguments. -/
theorem initNative_twice_reports_witness :
    (initNative (initNative ⟨false, none⟩ ⟨none, true, true, true⟩
        10 1000 77 "/tmp/a").1 ⟨none, true, true, true⟩ 20 2000 88 "/tmp/b").2.2 =
      .recovered (.raisedException "Calling initNative() more than once"
        none true) :=
  (initNative_twice_reports ⟨false, none⟩ ⟨none, true, true, true⟩
    ⟨none, true, true, true⟩ 10 1000 77 "/tmp/a" 20 2000 88 "/tmp/b"
    rfl (by decide) rfl rfl).2.2

end Blaze
